import Mathlib

/-!
Shallow embedding of `DownloadStatement.py` (ICS-Cards statement downloader).

The script scrapes an HTML statement table, normalizes each row
(`StatementReader.__get_entry`), and exports the rows as CSV or QIF.
This file embeds the pure data transformations of the script:

* the two regular-expression rewrites used on each row
  (`re.sub(r"^.+\s(\d+),(\d+).*", r"\1.\2", _)` on the amount column and
  `re.compile(r"(.+?)\s\w{3}\s+Land:").search(_)` on the description column),
  modelled by faithful backtracking semantics specialised to these patterns;
* `StatementReader.__get_entry` (row normalization, debit/credit split);
* `StatementReader.__parse_table`'s exactly-one-table requirement;
* `Period` (`increment_month`, `__str__` with Python's `{:04d}`/`{:02d}`);
* the filename derivation in `main` (including Python's `None`-formatting
  `TypeError` and the accidental reference to the builtin `format`);
* the CPython attribute semantics of the class-level `__headers`/`__entries`
  lists, which are shared by every `StatementReader` instance;
* the period loop of `main`.
-/

namespace ICS

/-! ### Python `re` character classes (ASCII range).

Python's `\d`, `\s`, `\w` additionally accept some non-ASCII code points; the
inputs handled by this development only exercise the ASCII behaviour (the euro
sign belongs to none of the classes in Python either). -/

/-- Python regex `\d` (ASCII): the characters `'0'`-`'9'`. -/
def isPyDigit (c : Char) : Bool := c.isDigit

/-- Python regex `\s` (ASCII): space, tab, newline, carriage return,
vertical tab, form feed. -/
def isPySpace (c : Char) : Bool :=
  c = ' ' || c = '\t' || c = '\n' || c = '\r' || c = Char.ofNat 11 || c = Char.ofNat 12

/-- Python regex `\w` (ASCII): letters, digits and underscore. -/
def isPyWord (c : Char) : Bool := c.isAlphanum || c = '_'

/-! ### `re.sub(r"^.+\s(\d+),(\d+).*", r"\1.\2", s)`  (amount repair)

The pattern is anchored at the start of the string, so `re.sub` performs at
most one replacement.  The greedy `.+` makes the engine place the `\s` at the
rightmost position (of index ≥ 1, with no newline before it, since `.` does
not match `"\n"`) at which the rest of the pattern matches; `(\d+)` being
greedy and followed by a literal that is not a digit, each group is the maximal
digit run; the trailing `.*` then swallows everything up to the next newline,
which is the end of the replaced region. -/

/-- Match `(\d+),(\d+).*` at the position just after the `\s`:
returns the two digit groups and the part of the string left unreplaced
(the suffix from the first newline after the second group, if any). -/
def amountTail (cs : List Char) : Option (List Char × List Char × List Char) :=
  let g1 := cs.takeWhile isPyDigit
  match cs.dropWhile isPyDigit with
  | ',' :: r2 =>
    let g2 := r2.takeWhile isPyDigit
    if g1.isEmpty || g2.isEmpty then none
    else some (g1, g2, (r2.dropWhile isPyDigit).dropWhile (fun c => !(c = '\n')))
  | _ => none

/-- Scan for the rightmost position at which `\s(\d+),(\d+).*` matches,
subject to every character strictly before that position being reachable by
`.+` (i.e. not a newline).  A deeper (more to the right) success is preferred,
mirroring the backtracking order of the greedy `.+`. -/
def amountScan : List Char → Option (List Char × List Char × List Char)
  | [] => none
  | c :: cs =>
    if c = '\n' then amountTail cs
    else
      match amountScan cs with
      | some r => some r
      | none => if isPySpace c then amountTail cs else none

/-- `re.sub(r"^.+\s(\d+),(\d+).*", r"\1.\2", _)` on a list of characters:
the `\s` must sit at index ≥ 1 (the `.+` needs at least one character, which
must not be a newline); on a match the whole matched region is replaced by
`group1 ++ "." ++ group2`; otherwise the string is unchanged. -/
def amountSub : List Char → List Char
  | [] => []
  | c :: rest =>
    if c = '\n' then c :: rest
    else
      match amountScan rest with
      | some (g1, g2, rem) => g1 ++ '.' :: (g2 ++ rem)
      | none => c :: rest

/-- Line 128 of the source: the amount-column rewrite
`re.sub(r"^.+\s(\d+),(\d+).*", r"\1.\2", row_items[6])`. -/
def fixAmount (s : String) : String := ⟨amountSub s.data⟩

/-! ### `re.compile(r"(.+?)\s\w{3}\s+Land:").search(s)`  (payee extraction)

`search` finds the leftmost match; the lazy `(.+?)` makes the group the
shortest non-empty newline-free run after which `\s\w{3}\s+Land:` matches.
The greedy `\s+` is equivalent to the maximal whitespace run because the
following literal starts with the non-whitespace character `'L'`. -/

/-- Match `\s\w{3}\s+Land:` at the head of `cs`. -/
def landTail (cs : List Char) : Bool :=
  match cs with
  | c :: w1 :: w2 :: w3 :: rest =>
    isPySpace c && isPyWord w1 && isPyWord w2 && isPyWord w3 &&
      !(rest.takeWhile isPySpace).isEmpty &&
      (rest.dropWhile isPySpace).take 5 == "Land:".data
  | _ => false

/-- Grow the lazy group `(.+?)` one character at a time (shortest first) from
a fixed start position, accumulating the group in `acc`; the group may not
contain a newline. -/
def payeeGrow (acc : List Char) : List Char → Option (List Char)
  | [] => none
  | c :: rest =>
    if c = '\n' then none
    else if landTail rest then some (acc ++ [c])
    else payeeGrow (acc ++ [c]) rest

/-- `search`: try each start position from the left; at each one, the lazy
group grows until the tail pattern matches. -/
def payeeSearch : List Char → Option (List Char)
  | [] => none
  | c :: rest =>
    match payeeGrow [] (c :: rest) with
    | some g => some g
    | none => payeeSearch rest

/-- Lines 131-135 of the source: the payee is `match.group(1)` when the
pattern matches the description, and the raw description otherwise. -/
def getPayee (desc : String) : String :=
  match payeeSearch desc.data with
  | some g => ⟨g⟩
  | none => desc

/-! ### `StatementReader.__get_entry` -/

/-- `row_items[5].replace(',', '.')` — Python `str.replace` with a
single-character pattern replaces every occurrence of that character. -/
def fixDecimal (s : String) : String :=
  ⟨s.data.map fun c => if c = ',' then '.' else c⟩

/-- `re.match(r"Debet", s)` is a success exactly when `s` begins with the
literal `"Debet"`. -/
def matchDebet (s : String) : Bool := List.isPrefixOf "Debet".data s.data

/-- Outcome of `__get_entry` on one row: the empty row is skipped
(`if len(row_items) > 0`), a row of 1-6 cells raises `IndexError` at the
first out-of-range index touched, and a row of ≥ 7 cells produces the
finished entry that is appended to `__entries`. -/
inductive RowResult where
  | skipped : RowResult
  | indexError : Nat → RowResult
  | entry : List String → RowResult
deriving DecidableEq, Repr

/-- Lines 114-150 of the source, given the already-extracted cell texts.
With fewer than 6 cells the read of `row_items[5]` raises; with exactly 6 the
read of `row_items[6]` raises.  With ≥ 7 cells: replace commas by dots in
column 5, rewrite column 6 through `fixAmount`, append the payee extracted
from column 2, then split on whether column 4 starts with `"Debet"`:
a debit appends (out = amount, in = "") and afterwards prefixes column 6 with
`'-'`; a credit appends (out = "", in = amount) and leaves column 6 alone. -/
def getEntry (rowItems : List String) : RowResult :=
  if rowItems.length = 0 then RowResult.skipped
  else if rowItems.length < 6 then RowResult.indexError 5
  else if rowItems.length < 7 then RowResult.indexError 6
  else
    let r1 := rowItems.set 5 (fixDecimal (rowItems.getD 5 ""))
    let amount := fixAmount (r1.getD 6 "")
    let r2 := r1.set 6 amount
    let withPayee := r2 ++ [getPayee (r2.getD 2 "")]
    if matchDebet (r2.getD 4 "") then
      RowResult.entry ((withPayee ++ [amount, ""]).set 6 ("-" ++ amount))
    else
      RowResult.entry (withPayee ++ ["", amount])

/-! ### `StatementReader.__parse_table`: the exactly-one-table requirement -/

/-- The two fatal errors raised by `__parse_table`
(`'No statement table found'` and `'Too many statement tables found'`). -/
inductive TableError where
  | noStatementTable : TableError
  | ambiguousStatementTable : TableError
deriving DecidableEq, Repr

/-- Lines 154-159 of the source: `len(tables) < 1` raises, `len(tables) > 1`
raises, otherwise processing continues with `tables[0]`. -/
def selectTable {α : Type} (tables : List α) : Except TableError α :=
  match tables with
  | [] => Except.error TableError.noStatementTable
  | [t] => Except.ok t
  | _ :: _ :: _ => Except.error TableError.ambiguousStatementTable

/-- Lines 283-300 of the source: `main` wraps the whole run in one
`try/except` that prints the error and calls `exit(-1)`; a run that raises
nothing falls off the end of `main` with the implicit exit status 0. -/
def mainExitCode {ε α : Type} (run : Except ε α) : Int :=
  match run with
  | Except.error _ => -1
  | Except.ok _ => 0

/-! ### `Period` -/

/-- `Period`: a statement period; `month` and `year` are Python `int`s. -/
structure Period where
  month : Int
  year : Int
deriving DecidableEq, Repr

/-- The decimal digit character for `d < 10`. -/
def digitCharOf (d : Nat) : Char :=
  if d = 0 then '0' else if d = 1 then '1' else if d = 2 then '2'
  else if d = 3 then '3' else if d = 4 then '4' else if d = 5 then '5'
  else if d = 6 then '6' else if d = 7 then '7' else if d = 8 then '8'
  else '9'

/-- Decimal digits of `n`, most significant first (`fuel ≥ n + 1` suffices). -/
def natDigitsAux : Nat → Nat → List Char
  | 0, _ => []
  | fuel + 1, n =>
    if n < 10 then [digitCharOf n]
    else natDigitsAux fuel (n / 10) ++ [digitCharOf (n % 10)]

/-- Decimal digit string of a natural number (no sign, no padding). -/
def natDigits (n : Nat) : List Char := natDigitsAux (n + 1) n

/-- Python's `"{:0wd}".format(n)`: decimal digits of `|n|`, zero-padded on
the left to total width `w`, the sign (for negative `n`) counting towards the
width and preceding the padding.  Wider numbers are not truncated. -/
def pyFormat0d (width : Nat) (n : Int) : List Char :=
  let ds := natDigits n.natAbs
  let sign : List Char := if n < 0 then ['-'] else []
  sign ++ List.replicate (width - (ds.length + sign.length)) '0' ++ ds

/-- `Period.__str__`, line 227 of the source:
`"{0:04d}{1:02d}".format(self.year, self.month)`. -/
def Period.str (p : Period) : String :=
  ⟨pyFormat0d 4 p.year ++ pyFormat0d 2 p.month⟩

/-- `Period.increment_month`, lines 189-197 of the source. -/
def Period.increment_month (p : Period) : Period :=
  if p.month = 12 then { month := 1, year := p.year + 1 }
  else { month := p.month + 1, year := p.year }

/-- Linearisation of a period onto the month number line (12 months a year);
used only in statements about the period loop, not by the embedded code. -/
def monthIndex (p : Period) : Int := 12 * p.year + p.month

/-- Lines 285-291 of the source: `get_statement(period)` once, then
`while not (period.month == end_month and period.year == end_year):
increment and fetch`.  The result is the list of periods fetched, in order;
`none` means the loop has not terminated within `fuel` iterations. -/
def fetchedPeriods : Nat → Period → Period → Option (List Period)
  | 0, _, _ => none
  | fuel + 1, p, e =>
    if p.month = e.month ∧ p.year = e.year then some [p]
    else
      match fetchedPeriods fuel (Period.increment_month p) e with
      | some l => some (p :: l)
      | none => none

/-! ### Filename derivation in `main` (lines 271-280)

`month`/`year` always hold `int`s; `end_month`/`end_year` are `None` unless
the end options were given.  In Python `month == end_month` is `False` when
`end_month` is `None`, so with the end options omitted the `else` branch runs
and `"{2:04d}".format(None)` raises `TypeError`.  That branch also
interpolates the bare name `format` — the Python *builtin* — instead of
`args.format`, which renders as `"<built-in function format>"`. -/

/-- `str(format)` for the builtin `format` function, as interpolated by
`"....{4}".format(..., format)`. -/
def builtinFormatStr : String := "<built-in function format>"

/-- The filename computation of `main`.  `Except.error` models an uncaught
`TypeError` (the computation happens *before* the `try` block, so it crashes
the process with a traceback). -/
def computeFilename (fnameArg : Option String) (month year : Int)
    (endMonth endYear : Option Int) (fmt : String) : Except String String :=
  match fnameArg with
  | none =>
    if ((match endMonth with | some m => month == m | none => false) &&
        (match endYear with | some y => year == y | none => false)) then
      Except.ok ⟨pyFormat0d 4 year ++ '-' :: pyFormat0d 2 month ++ '.' :: fmt.data⟩
    else
      match endYear, endMonth with
      | some ey, some em =>
        Except.ok ⟨pyFormat0d 4 year ++ '-' :: pyFormat0d 2 month ++
          "_to_".data ++ pyFormat0d 4 ey ++ '-' :: pyFormat0d 2 em ++
          '.' :: builtinFormatStr.data⟩
      | _, _ => Except.error "TypeError: unsupported format string passed to NoneType.__format__"
  | some f =>
    if f.data.drop (f.data.length - (fmt.data.length + 1)) == '.' :: fmt.data then
      Except.ok f
    else Except.ok ⟨f.data ++ '.' :: fmt.data⟩

/-! ### Class-level attribute sharing (`__headers` / `__entries`)

In the source, `__headers = []` and `__entries = []` are *class* attributes of
`StatementReader`.  `__init__` and `__login` assign `self.__username`,
`self.__password`, `self.__session`, creating per-instance attributes, but
`__headers`/`__entries` are only ever mutated in place (`append`), never
assigned, so attribute lookup on every instance keeps resolving to the two
class-level list objects: all instances alias the same two lists. -/

/-- Per-instance attributes of a `StatementReader`
(the ones assigned through `self.attr = ...`). -/
structure ReaderInstance where
  username : String
  password : String
  sessionOpen : Bool
deriving DecidableEq, Repr

/-- A world of `StatementReader` instances together with the class-level
`__headers`/`__entries` lists they all alias. -/
structure ReaderWorld where
  headers : List String
  entries : List (List String)
  instances : List ReaderInstance
deriving DecidableEq, Repr

/-- The headers collection observed through instance `i`: attribute lookup
falls through to the class attribute. -/
def headersSeenBy (w : ReaderWorld) (_i : Nat) : List String := w.headers

/-- The entries collection observed through instance `i`: attribute lookup
falls through to the class attribute. -/
def entriesSeenBy (w : ReaderWorld) (_i : Nat) : List (List String) := w.entries

/-- `__get_entry` called on a row through instance `i`: a finished entry is
appended to the class-level `__entries` list (`self.__entries.append(...)`);
a skipped row leaves the world unchanged. -/
def processRowVia (w : ReaderWorld) (_i : Nat) (row : List String) : ReaderWorld :=
  match getEntry row with
  | RowResult.entry l => { w with entries := w.entries ++ [l] }
  | _ => w

/-- `__get_headers` through instance `i` (guarded in `__parse_table` by
`len(self.__headers) == 0`): appends the table's header texts and the three
synthetic headers to the class-level `__headers` list. -/
def captureHeadersVia (w : ReaderWorld) (_i : Nat) (ths : List String) : ReaderWorld :=
  if w.headers.length = 0 then
    { w with headers := w.headers ++ ths ++ ["payee", "out", "in"] }
  else w

/-! ## Helper lemmas -/

lemma digitCharOf_isDigit (d : Nat) : (digitCharOf d).isDigit = true := by
  unfold digitCharOf
  repeat' split
  all_goals decide

lemma natDigitsAux_digits : ∀ (fuel n : Nat), ∀ c ∈ natDigitsAux fuel n, c.isDigit = true := by
  intro fuel
  induction fuel with
  | zero => intro n c h; simp [natDigitsAux] at h
  | succ fuel ih =>
    intro n c h
    unfold natDigitsAux at h
    split at h
    · simp at h
      subst h
      exact digitCharOf_isDigit n
    · rw [List.mem_append] at h
      rcases h with h | h
      · exact ih _ c h
      · simp at h
        subst h
        exact digitCharOf_isDigit (n % 10)

lemma natDigitsAux_length : ∀ (fuel n k : Nat), n < fuel → n < 10 ^ k → 1 ≤ k →
    (natDigitsAux fuel n).length ≤ k := by
  intro fuel
  induction fuel with
  | zero => intro n k h; omega
  | succ fuel ih =>
    intro n k hf hk h1
    unfold natDigitsAux
    split
    · simpa using h1
    · rename_i hn
      have h2 : 2 ≤ k := by
        by_contra hc
        have hk1 : k = 1 := by omega
        subst hk1
        simp at hk
        omega
      have hkeq : 10 ^ (k - 1) * 10 = 10 ^ k := by
        rw [← pow_succ]
        congr 1
        omega
      have hdiv : n / 10 < 10 ^ (k - 1) := by
        rw [Nat.div_lt_iff_lt_mul (by omega)]
        omega
      have hfl : n / 10 < fuel := by omega
      have := ih (n / 10) (k - 1) hfl hdiv (by omega)
      rw [List.length_append]
      simp only [List.length_singleton]
      omega

lemma pyFormat0d_length (w : Nat) (n : Int) (h0 : 0 ≤ n) (hlt : n.natAbs < 10 ^ w)
    (hw : 1 ≤ w) : (pyFormat0d w n).length = w := by
  have hd : (natDigits n.natAbs).length ≤ w :=
    natDigitsAux_length _ _ _ (Nat.lt_succ_self _) hlt hw
  unfold pyFormat0d
  rw [if_neg (by omega)]
  simp only [List.nil_append, List.length_append, List.length_replicate, List.length_nil]
  omega

lemma pyFormat0d_digits (w : Nat) (n : Int) (h0 : 0 ≤ n) :
    ∀ c ∈ pyFormat0d w n, c.isDigit = true := by
  unfold pyFormat0d
  rw [if_neg (by omega)]
  intro c hc
  simp only [List.nil_append, List.mem_append] at hc
  rcases hc with hc | hc
  · rw [List.eq_of_mem_replicate hc]
    decide
  · exact natDigitsAux_digits _ _ c hc

/-! ## Claims -/

/-- C7 (amended): for every `Period` whose month lies in `[1, 12]` and whose
year lies in `[0, 9999]`, `Period.__str__` yields exactly 6 digits — the
zero-padded 4-digit year followed by the zero-padded 2-digit month — and
`Period(1, 2012)` formats to `"201201"`.  (Python's `{:04d}` does not
truncate, so a year of five or more digits yields more than 6 characters;
see the counterexample.) -/
theorem C7_period_format :
    (∀ m y : Int, 1 ≤ m → m ≤ 12 → 0 ≤ y → y ≤ 9999 →
      (Period.str ⟨m, y⟩).length = 6 ∧
      (∀ c ∈ (Period.str ⟨m, y⟩).data, c.isDigit = true) ∧
      (Period.str ⟨m, y⟩).data = pyFormat0d 4 y ++ pyFormat0d 2 m) ∧
    Period.str ⟨1, 2012⟩ = "201201" := by
  constructor
  · intro m y hm1 hm2 hy0 hy9
    have habs_y : y.natAbs < 10 ^ 4 := by simp [show (10:Nat) ^ 4 = 10000 from by norm_num]; omega
    have habs_m : m.natAbs < 10 ^ 2 := by simp [show (10:Nat) ^ 2 = 100 from by norm_num]; omega
    refine ⟨?_, ?_, rfl⟩
    · show (pyFormat0d 4 y ++ pyFormat0d 2 m).length = 6
      rw [List.length_append, pyFormat0d_length 4 y hy0 habs_y (by omega),
        pyFormat0d_length 2 m (by omega) habs_m (by omega)]
    · intro c hc
      rw [show (Period.str ⟨m, y⟩).data = pyFormat0d 4 y ++ pyFormat0d 2 m from rfl,
        List.mem_append] at hc
      rcases hc with hc | hc
      · exact pyFormat0d_digits 4 y hy0 c hc
      · exact pyFormat0d_digits 2 m (by omega) c hc
  · decide

/-- C7 counterexample: the claim quantifies over every `Period`, but
`Period(1, 10000)` formats to `"1000001"`, which is 7 characters, not 6
(Python's `{:04d}` pads but never truncates). -/
theorem C7_counterexample : (Period.str ⟨1, 10000⟩).length ≠ 6 := by decide

/-- C7 witness: the amended theorem instantiated at `Period(1, 2012)`. -/
theorem C7_witness :
    (Period.str ⟨1, 2012⟩).length = 6 ∧
    (∀ c ∈ (Period.str ⟨1, 2012⟩).data, c.isDigit = true) ∧
    (Period.str ⟨1, 2012⟩).data = pyFormat0d 4 2012 ++ pyFormat0d 2 1 :=
  C7_period_format.1 1 2012 (by decide) (by decide) (by decide) (by decide)

/-- C8: for every `Period` with month in `[1, 12]`, `increment_month` keeps
the month in `[1, 12]`; a month of 12 becomes 1 with the year increased by
one, any other month is increased by one with the year unchanged; in
particular `Period(12, 2020)` increments to `(1, 2021)`. -/
theorem C8_increment_month :
    (∀ p : Period, 1 ≤ p.month → p.month ≤ 12 →
      1 ≤ p.increment_month.month ∧ p.increment_month.month ≤ 12 ∧
      (p.month = 12 → p.increment_month = ⟨1, p.year + 1⟩) ∧
      (p.month ≠ 12 → p.increment_month = ⟨p.month + 1, p.year⟩)) ∧
    Period.increment_month ⟨12, 2020⟩ = ⟨1, 2021⟩ := by
  constructor
  · intro p h1 h12
    unfold Period.increment_month
    by_cases h : p.month = 12
    · rw [if_pos h]
      exact ⟨show (1:Int) ≤ 1 from by norm_num, show (1:Int) ≤ 12 from by norm_num,
        fun _ => rfl, fun hc => absurd h hc⟩
    · rw [if_neg h]
      exact ⟨show 1 ≤ p.month + 1 from by omega, show p.month + 1 ≤ 12 from by omega,
        fun hc => absurd hc h, fun _ => rfl⟩
  · decide

/-- C8 witness: the theorem instantiated at `Period(12, 2020)`. -/
theorem C8_witness :
    1 ≤ (Period.increment_month ⟨12, 2020⟩).month ∧
    (Period.increment_month ⟨12, 2020⟩).month ≤ 12 ∧
    ((Period.mk 12 2020).month = 12 → Period.increment_month ⟨12, 2020⟩ = ⟨1, 2021⟩) ∧
    ((Period.mk 12 2020).month ≠ 12 →
      Period.increment_month ⟨12, 2020⟩ = ⟨(Period.mk 12 2020).month + 1, 2020⟩) :=
  C8_increment_month.1 ⟨12, 2020⟩ (by decide) (by decide)

/-- C4: parsing requires exactly one matching table — an empty selection
raises the no-table error, two or more raise the ambiguity error, exactly
one proceeds with that table; and any raised error reaches `main`'s
catch-all handler, which exits with status `-1`. -/
theorem C4_single_table :
    (∀ (α : Type) (tables : List α),
      (tables.length = 0 → selectTable tables = Except.error TableError.noStatementTable) ∧
      (1 < tables.length → selectTable tables = Except.error TableError.ambiguousStatementTable) ∧
      (tables.length = 1 → ∃ t, selectTable tables = Except.ok t ∧ t ∈ tables)) ∧
    (∀ e : TableError, mainExitCode (Except.error e : Except TableError Unit) = -1) := by
  constructor
  · intro α tables
    match tables with
    | [] => exact ⟨fun _ => rfl, fun h => by simp at h, fun h => by simp at h⟩
    | [t] =>
      exact ⟨fun h => by simp at h, fun h => by simp at h,
        fun _ => ⟨t, rfl, List.mem_singleton_self t⟩⟩
    | a :: b :: l =>
      exact ⟨fun h => by simp at h, fun _ => rfl, fun h => by simp at h⟩
  · intro e
    rfl

/-- C4 witness: the theorem applied to selections of zero, one and two
tables. -/
theorem C4_witness :
    selectTable ([] : List Nat) = Except.error TableError.noStatementTable ∧
    selectTable [3, 4] = Except.error TableError.ambiguousStatementTable ∧
    (∃ t, selectTable [5] = Except.ok t ∧ t ∈ [5]) ∧
    mainExitCode (Except.error TableError.noStatementTable : Except TableError Unit) = -1 :=
  ⟨(C4_single_table.1 Nat []).1 rfl,
   (C4_single_table.1 Nat [3, 4]).2.1 (by decide),
   (C4_single_table.1 Nat [5]).2.2 rfl,
   C4_single_table.2 TableError.noStatementTable⟩

/-- C5: evaluation of the filename derivation at the failing input.  With
`--filename` omitted and no end period given (the default single-period run),
`main` compares `month == end_month` against `None`, takes the range branch,
and `"{2:04d}".format(None)` raises `TypeError` — there is no `"yyyy-mm"`
default, contradicting the script's own `--filename` help text.  The range
branch moreover interpolates the Python builtin `format` instead of
`args.format`.  Explicit filenames do get the announced extension handling. -/
theorem C5_filename_eval :
    computeFilename none 1 2020 none none "qif" =
      Except.error "TypeError: unsupported format string passed to NoneType.__format__" ∧
    computeFilename none 1 2020 (some 3) (some 2020) "qif" =
      Except.ok "2020-01_to_2020-03.<built-in function format>" ∧
    computeFilename none 1 2020 (some 1) (some 2020) "qif" = Except.ok "2020-01.qif" ∧
    computeFilename (some "out") 1 2020 none none "csv" = Except.ok "out.csv" ∧
    computeFilename (some "out.csv") 1 2020 none none "csv" = Except.ok "out.csv" := by
  exact ⟨rfl, rfl, rfl, rfl, rfl⟩

/-- C10: the only guard in `__get_entry` is `len(row_items) > 0`; every row
of 1-6 cells reaches the column rewrites and fails with `IndexError` on
column 5 (fewer than 6 cells) or column 6 (exactly 6 cells) instead of being
skipped, while the empty row is skipped. -/
theorem C10_short_row :
    (∀ row : List String, 1 ≤ row.length → row.length < 7 →
      (row.length ≤ 5 → getEntry row = RowResult.indexError 5) ∧
      (row.length = 6 → getEntry row = RowResult.indexError 6) ∧
      getEntry row ≠ RowResult.skipped) ∧
    getEntry [] = RowResult.skipped := by
  constructor
  · intro row h1 h7
    have h0 : ¬ row.length = 0 := by omega
    unfold getEntry
    rw [if_neg h0]
    by_cases h6 : row.length < 6
    · rw [if_pos h6]
      exact ⟨fun _ => rfl, fun he => by omega, by simp⟩
    · rw [if_neg h6, if_pos (by omega)]
      exact ⟨fun hle => by omega, fun _ => rfl, by simp⟩
  · rfl

/-- C10 witness: a three-cell row fails with `IndexError` on column 5 and is
not skipped. -/
theorem C10_witness :
    getEntry ["a", "b", "c"] = RowResult.indexError 5 ∧
    getEntry ["a", "b", "c"] ≠ RowResult.skipped :=
  ⟨(C10_short_row.1 ["a", "b", "c"] (by decide) (by decide)).1 (by decide),
   (C10_short_row.1 ["a", "b", "c"] (by decide) (by decide)).2.2⟩

/-- C6 (amended): `__headers` and `__entries` are class attributes of
`StatementReader`, so every instance aliases the same two lists: a row
normalized through any instance `i` is immediately observed through every
instance `j`, and header capture through any instance is likewise shared.
Exclusive per-instance ownership does not hold; it is only harmless because
`main` creates a single instance per run. -/
theorem C6_shared_collections :
    ∀ (w : ReaderWorld) (i j : Nat) (row : List String) (l : List String),
      getEntry row = RowResult.entry l →
      entriesSeenBy (processRowVia w i row) j = entriesSeenBy w j ++ [l] ∧
      (∀ ths : List String,
        headersSeenBy (captureHeadersVia w i ths) j =
          headersSeenBy (captureHeadersVia w j ths) i) := by
  intro w i j row l h
  constructor
  · unfold processRowVia entriesSeenBy
    rw [h]
  · intro ths
    rfl

/-- C6 counterexample: two distinct `StatementReader` instances; processing
a row through instance 0 changes the entries collection observed through
instance 1, refuting exclusive per-instance ownership. -/
theorem C6_counterexample :
    entriesSeenBy
      (processRowVia ⟨[], [], [⟨"alice", "pw1", false⟩, ⟨"bob", "pw2", false⟩]⟩ 0
        ["01/01/2014", "", "desc", "1234", "Credit", "1,5", "2,5"]) 1 ≠
    entriesSeenBy
      (⟨[], [], [⟨"alice", "pw1", false⟩, ⟨"bob", "pw2", false⟩]⟩ : ReaderWorld) 1 := by
  decide

/-- C6 witness: the amended theorem applied to a concrete world of two
instances and a concrete credit row. -/
theorem C6_witness :
    entriesSeenBy
      (processRowVia ⟨[], [], [⟨"alice", "pw1", false⟩, ⟨"bob", "pw2", false⟩]⟩ 0
        ["01/01/2014", "", "desc", "1234", "Credit", "1,5", "2,5"]) 1 =
      entriesSeenBy (⟨[], [], [⟨"alice", "pw1", false⟩, ⟨"bob", "pw2", false⟩]⟩ : ReaderWorld) 1 ++
        [["01/01/2014", "", "desc", "1234", "Credit", "1.5", "2,5", "desc", "", "2,5"]] ∧
    (∀ ths : List String,
      headersSeenBy
        (captureHeadersVia ⟨[], [], [⟨"alice", "pw1", false⟩, ⟨"bob", "pw2", false⟩]⟩ 0 ths) 1 =
      headersSeenBy
        (captureHeadersVia ⟨[], [], [⟨"alice", "pw1", false⟩, ⟨"bob", "pw2", false⟩]⟩ 1 ths) 0) :=
  C6_shared_collections ⟨[], [], [⟨"alice", "pw1", false⟩, ⟨"bob", "pw2", false⟩]⟩ 0 1
    ["01/01/2014", "", "desc", "1234", "Credit", "1,5", "2,5"]
    ["01/01/2014", "", "desc", "1234", "Credit", "1.5", "2,5", "desc", "", "2,5"] (by decide)

lemma takeWhile_append_all {α : Type} {p : α → Bool} (l r : List α)
    (h : ∀ c ∈ l, p c = true) : (l ++ r).takeWhile p = l ++ r.takeWhile p := by
  induction l with
  | nil => rfl
  | cons a l ih =>
    rw [List.cons_append, List.takeWhile_cons, if_pos (h a (List.mem_cons_self a l)),
      ih fun c hc => h c (List.mem_cons_of_mem a hc), List.cons_append]

lemma dropWhile_append_all {α : Type} {p : α → Bool} (l r : List α)
    (h : ∀ c ∈ l, p c = true) : (l ++ r).dropWhile p = r.dropWhile p := by
  induction l with
  | nil => rfl
  | cons a l ih =>
    rw [List.cons_append, List.dropWhile_cons, if_pos (h a (List.mem_cons_self a l)),
      ih fun c hc => h c (List.mem_cons_of_mem a hc)]

lemma isPySpace_of_isPyDigit {c : Char} (h : isPyDigit c = true) : isPySpace c = false := by
  by_contra hc
  rw [Bool.not_eq_false] at hc
  unfold isPySpace at hc
  have hcases : ((((c = ' ' ∨ c = '\t') ∨ c = '\n') ∨ c = '\r') ∨ c = Char.ofNat 11) ∨
      c = Char.ofNat 12 := by simpa using hc
  rcases hcases with ((((e | e) | e) | e) | e) | e <;> subst e <;> revert h <;> decide

lemma amountTail_closed (d1 d2 : List Char) (h1 : d1 ≠ [])
    (hd1 : ∀ c ∈ d1, isPyDigit c = true) (h2 : d2 ≠ [])
    (hd2 : ∀ c ∈ d2, isPyDigit c = true) :
    amountTail (d1 ++ ',' :: d2) = some (d1, d2, []) := by
  have htake : (d1 ++ ',' :: d2).takeWhile isPyDigit = d1 := by
    rw [takeWhile_append_all d1 _ hd1, List.takeWhile_cons, if_neg (by decide),
      List.append_nil]
  have hdrop : (d1 ++ ',' :: d2).dropWhile isPyDigit = ',' :: d2 := by
    rw [dropWhile_append_all d1 _ hd1, List.dropWhile_cons, if_neg (by decide)]
  unfold amountTail
  simp only [htake, hdrop, List.takeWhile_eq_self_iff.mpr hd2,
    List.dropWhile_eq_nil_iff.mpr hd2, List.dropWhile_nil]
  rw [if_neg]
  simp only [Bool.or_eq_true, List.isEmpty_eq_true]
  rintro (h | h)
  · exact h1 h
  · exact h2 h

lemma amountScan_none (cs : List Char) (h : ∀ c ∈ cs, isPySpace c = false) :
    amountScan cs = none := by
  induction cs with
  | nil => rfl
  | cons c cs ih =>
    have hc : isPySpace c = false := h c (List.mem_cons_self c cs)
    have hcn : ¬ c = '\n' := by
      intro e
      subst e
      simp [isPySpace] at hc
    unfold amountScan
    rw [if_neg hcn, ih fun x hx => h x (List.mem_cons_of_mem c hx), hc]
    rfl

lemma amountScan_closed (pre d1 d2 : List Char) (hpre : ∀ c ∈ pre, c ≠ '\n')
    (h1 : d1 ≠ []) (hd1 : ∀ c ∈ d1, isPyDigit c = true) (h2 : d2 ≠ [])
    (hd2 : ∀ c ∈ d2, isPyDigit c = true) :
    amountScan (pre ++ ' ' :: (d1 ++ ',' :: d2)) = some (d1, d2, []) := by
  induction pre with
  | nil =>
    rw [List.nil_append]
    unfold amountScan
    rw [if_neg (by decide)]
    have hnospace : ∀ c ∈ d1 ++ ',' :: d2, isPySpace c = false := by
      intro c hc
      rw [List.mem_append] at hc
      rcases hc with hc | hc
      · exact isPySpace_of_isPyDigit (hd1 c hc)
      · rcases List.mem_cons.mp hc with hc | hc
        · subst hc; decide
        · exact isPySpace_of_isPyDigit (hd2 c hc)
    rw [amountScan_none _ hnospace]
    show (if isPySpace ' ' = true then amountTail (d1 ++ ',' :: d2) else none) = _
    rw [if_pos (by decide)]
    exact amountTail_closed d1 d2 h1 hd1 h2 hd2
  | cons c pre ih =>
    rw [List.cons_append]
    unfold amountScan
    rw [if_neg (hpre c (List.mem_cons_self c pre)),
      ih fun x hx => hpre x (List.mem_cons_of_mem c hx)]

/-- C1 (amended): the amount rewrite on column 6 replaces the whole string
with `<digits>.<digits>` built from the last `<digits>,<digits>` segment that
is immediately preceded by a whitespace character at position ≥ 1, discarding
the currency symbol, the leading text and anything after the segment; an
input the pattern does not match is left unchanged.  Because `\s` must match
directly before the first digit group, `"€ 1.234,56"` does NOT match (the
segment `234,56` is preceded by `'.'`) and is left unchanged, while
`"€ 1234,56"` yields `"1234.56"` and `"Total: € 28,95 extra"` yields
`"28.95"`. -/
theorem C1_amount_repair :
    (∀ pre d1 d2 : List Char, pre ≠ [] → (∀ c ∈ pre, c ≠ '\n') →
      d1 ≠ [] → (∀ c ∈ d1, isPyDigit c = true) →
      d2 ≠ [] → (∀ c ∈ d2, isPyDigit c = true) →
      amountSub (pre ++ ' ' :: (d1 ++ ',' :: d2)) = d1 ++ '.' :: d2) ∧
    fixAmount "€ 1.234,56" = "€ 1.234,56" ∧
    fixAmount "€ 1234,56" = "1234.56" ∧
    fixAmount "Total: € 28,95 extra" = "28.95" ∧
    fixAmount "12,34" = "12,34" := by
  refine ⟨?_, by decide, by decide, by decide, by decide⟩
  intro pre d1 d2 hne hpre h1 hd1 h2 hd2
  match pre with
  | p :: pre =>
    rw [List.cons_append]
    show amountSub (p :: (pre ++ ' ' :: (d1 ++ ',' :: d2))) = _
    simp only [amountSub]
    rw [if_neg (hpre p (List.mem_cons_self p pre)),
      amountScan_closed pre d1 d2 (fun x hx => hpre x (List.mem_cons_of_mem p hx)) h1 hd1 h2 hd2]
    simp

/-- C1 counterexample: the claim asserts `"€ 1.234,56" → "234.56"`, but the
code's pattern `^.+\s(\d+),(\d+).*` fails to match (no whitespace directly
before `234`), so the string is left unchanged. -/
theorem C1_counterexample : fixAmount "€ 1.234,56" ≠ "234.56" := by decide

/-- C1 witness: the amended theorem's matching case instantiated at
`'a'` `" "` `"12"` `","` `"34"`, i.e. the string `"a 12,34"`. -/
theorem C1_witness :
    amountSub (['a'] ++ ' ' :: (['1', '2'] ++ ',' :: ['3', '4'])) = ['1', '2'] ++ '.' :: ['3', '4'] :=
  C1_amount_repair.1 ['a'] ['1', '2'] ['3', '4'] (by decide) (by decide) (by decide)
    (by decide) (by decide) (by decide)

lemma payeeGrow_sound : ∀ (l : List Char) (acc g : List Char),
    payeeGrow acc l = some g →
    ∃ t mid, l = t ++ mid ∧ g = acc ++ t ∧ t ≠ [] ∧ landTail mid = true := by
  intro l
  induction l with
  | nil => intro acc g h; simp [payeeGrow] at h
  | cons c rest ih =>
    intro acc g h
    unfold payeeGrow at h
    by_cases hc : c = '\n'
    · rw [if_pos hc] at h
      exact absurd h (by simp)
    · rw [if_neg hc] at h
      by_cases hl : landTail rest = true
      · rw [if_pos hl] at h
        refine ⟨[c], rest, rfl, ?_, by simp, hl⟩
        injection h with h
        exact h.symm
      · rw [if_neg hl] at h
        obtain ⟨t, mid, hsplit, hg, ht, hland⟩ := ih (acc ++ [c]) g h
        exact ⟨c :: t, mid, by rw [hsplit, List.cons_append],
          by rw [hg, List.append_assoc, List.singleton_append], by simp, hland⟩

lemma payeeGrow_none_acc : ∀ (l acc acc₂ : List Char),
    payeeGrow acc l = none → payeeGrow acc₂ l = none := by
  intro l
  induction l with
  | nil => intro acc acc₂ _; rfl
  | cons c rest ih =>
    intro acc acc₂ h
    unfold payeeGrow at h ⊢
    by_cases hc : c = '\n'
    · rw [if_pos hc]
    · rw [if_neg hc] at h ⊢
      by_cases hl : landTail rest = true
      · rw [if_pos hl] at h
        exact absurd h (by simp)
      · rw [if_neg hl] at h ⊢
        exact ih (acc ++ [c]) (acc₂ ++ [c]) h

lemma payeeSearch_eq_grow : ∀ l : List Char, (∀ c ∈ l, c ≠ '\n') →
    payeeSearch l = payeeGrow [] l := by
  intro l
  induction l with
  | nil => intro _; rfl
  | cons c rest ih =>
    intro h
    unfold payeeSearch
    cases hg : payeeGrow [] (c :: rest) with
    | some g => rfl
    | none =>
      show payeeSearch rest = none
      rw [ih fun x hx => h x (List.mem_cons_of_mem c hx)]
      unfold payeeGrow at hg
      rw [if_neg (h c (List.mem_cons_self c rest))] at hg
      by_cases hl : landTail rest = true
      · rw [if_pos hl] at hg
        exact absurd hg (by simp)
      · rw [if_neg hl] at hg
        exact payeeGrow_none_acc rest [c] [] hg

/-- C2 (amended): for every newline-free description on which the pattern
`(.+?)\s\w{3}\s+Land:` matches, the payee is a non-empty proper prefix of the
description, cut directly before a whitespace character, a 3-character word
token and (after more whitespace) the literal `"Land:"`; a description the
pattern does not match is returned whole.  In the spec's example the
3-letter token consumed by the pattern is `"AMS"` (the token *before*
`"Land:"`), so `"ALBERT HEIJN 1234 AMS Land: NLD"` yields the payee
`"ALBERT HEIJN 1234"`, not `"ALBERT HEIJN 1234 AMS"`. -/
theorem C2_payee_extraction :
    (∀ desc : List Char, (∀ c ∈ desc, c ≠ '\n') → ∀ g, payeeSearch desc = some g →
      g ≠ [] ∧ ∃ mid, desc = g ++ mid ∧ landTail mid = true) ∧
    getPayee "ALBERT HEIJN 1234 AMS Land: NLD" = "ALBERT HEIJN 1234" ∧
    getPayee "SOME SHOP AMSTERDAM" = "SOME SHOP AMSTERDAM" := by
  refine ⟨?_, by decide, by decide⟩
  intro desc hnl g h
  rw [payeeSearch_eq_grow desc hnl] at h
  obtain ⟨t, mid, hsplit, hg, ht, hland⟩ := payeeGrow_sound desc [] g h
  rw [List.nil_append] at hg
  subst hg
  exact ⟨ht, mid, hsplit, hland⟩

/-- C2 counterexample: the claim's example expects the payee
`"ALBERT HEIJN 1234 AMS"`, but in the code's pattern the `\w{3}` token
preceding `"Land:"` is `"AMS"` itself, so the captured prefix stops before
it. -/
theorem C2_counterexample :
    getPayee "ALBERT HEIJN 1234 AMS Land: NLD" ≠ "ALBERT HEIJN 1234 AMS" := by decide

/-- C2 witness: the amended theorem instantiated at the description
`"AB CDE Land: X"`, whose payee is `"AB"`. -/
theorem C2_witness :
    "AB".data ≠ [] ∧
    ∃ mid, "AB CDE Land: X".data = "AB".data ++ mid ∧ landTail mid = true :=
  C2_payee_extraction.1 "AB CDE Land: X".data (by decide) "AB".data (by decide)

lemma getEntry_long (row : List String) (h : 7 ≤ row.length) :
    getEntry row =
      if matchDebet (row.getD 4 "") = true then
        RowResult.entry
          (((((row.set 5 (fixDecimal (row.getD 5 ""))).set 6 (fixAmount (row.getD 6 ""))) ++
            [getPayee (row.getD 2 "")]) ++ [fixAmount (row.getD 6 ""), ""]).set 6
              ("-" ++ fixAmount (row.getD 6 "")))
      else
        RowResult.entry
          ((((row.set 5 (fixDecimal (row.getD 5 ""))).set 6 (fixAmount (row.getD 6 ""))) ++
            [getPayee (row.getD 2 "")]) ++ ["", fixAmount (row.getD 6 "")]) := by
  have h0 : ¬ row.length = 0 := by omega
  have h5 : ¬ row.length < 6 := by omega
  have h6 : ¬ row.length < 7 := by omega
  have e6 : (row.set 5 (fixDecimal (row.getD 5 ""))).getD 6 "" = row.getD 6 "" := by
    rw [List.getD_eq_getElem?_getD, List.getElem?_set_ne (by omega),
      ← List.getD_eq_getElem?_getD]
  have e2 : ∀ s : String,
      ((row.set 5 (fixDecimal (row.getD 5 ""))).set 6 s).getD 2 "" = row.getD 2 "" := by
    intro s
    rw [List.getD_eq_getElem?_getD, List.getElem?_set_ne (by omega),
      List.getElem?_set_ne (by omega), ← List.getD_eq_getElem?_getD]
  have e4 : ∀ s : String,
      ((row.set 5 (fixDecimal (row.getD 5 ""))).set 6 s).getD 4 "" = row.getD 4 "" := by
    intro s
    rw [List.getD_eq_getElem?_getD, List.getElem?_set_ne (by omega),
      List.getElem?_set_ne (by omega), ← List.getD_eq_getElem?_getD]
  simp only [getEntry, if_neg h0, if_neg h5, if_neg h6, e6, e2, e4]

/-- C3 (amended): for every row of at least 7 cells the finished record is
the normalized row followed by `[payee, out, in]`; when the indicator column
(index 4) starts with the literal `"Debet"`, `out` is the normalized amount,
`in` is `""` and the stored amount column (index 6) becomes `'-'` followed by
the normalized amount; otherwise `in` is the normalized amount, `out` is `""`
and column 6 keeps the normalized amount unsigned.  *Provided the normalized
amount string is non-empty*, exactly one of `out`/`in` is non-empty; a row
whose raw amount cell is empty yields a record in which both are empty (see
the counterexample). -/
theorem C3_debit_credit_split :
    ∀ row : List String, 7 ≤ row.length →
      ∃ front payee out inn,
        getEntry row = RowResult.entry (front ++ [payee, out, inn]) ∧
        front.length = row.length ∧
        payee = getPayee (row.getD 2 "") ∧
        (matchDebet (row.getD 4 "") = true →
          out = fixAmount (row.getD 6 "") ∧ inn = "" ∧
          front[6]? = some ("-" ++ fixAmount (row.getD 6 ""))) ∧
        (matchDebet (row.getD 4 "") = false →
          out = "" ∧ inn = fixAmount (row.getD 6 "") ∧
          front[6]? = some (fixAmount (row.getD 6 ""))) ∧
        (fixAmount (row.getD 6 "") ≠ "" →
          (out ≠ "" ∧ inn = "") ∨ (out = "" ∧ inn ≠ "")) := by
  intro row h
  rw [getEntry_long row h]
  have hr2len :
      ((row.set 5 (fixDecimal (row.getD 5 ""))).set 6 (fixAmount (row.getD 6 ""))).length
        = row.length := by
    rw [List.length_set, List.length_set]
  by_cases hD : matchDebet (row.getD 4 "") = true
  · rw [if_pos hD]
    refine ⟨((row.set 5 (fixDecimal (row.getD 5 ""))).set 6 (fixAmount (row.getD 6 "")))
        |>.set 6 ("-" ++ fixAmount (row.getD 6 "")),
      getPayee (row.getD 2 ""), fixAmount (row.getD 6 ""), "", ?_, ?_, rfl, ?_, ?_, ?_⟩
    · congr 1
      rw [List.set_append, if_pos (by rw [List.length_append, hr2len]; omega),
        List.set_append, if_pos (by rw [hr2len]; omega), List.append_assoc]
      rfl
    · rw [List.length_set, hr2len]
    · intro _
      exact ⟨rfl, rfl, List.getElem?_set_eq_of_lt _ (by rw [hr2len]; omega)⟩
    · intro hF
      rw [hD] at hF
      exact absurd hF (by simp)
    · intro hne
      exact Or.inl ⟨hne, rfl⟩
  · rw [if_neg hD]
    have hDf : matchDebet (row.getD 4 "") = false := by simpa using hD
    refine ⟨(row.set 5 (fixDecimal (row.getD 5 ""))).set 6 (fixAmount (row.getD 6 "")),
      getPayee (row.getD 2 ""), "", fixAmount (row.getD 6 ""), ?_, hr2len, rfl, ?_, ?_, ?_⟩
    · congr 1
      rw [List.append_assoc]
      rfl
    · intro hT
      exact absurd hT hD
    · intro _
      exact ⟨rfl, rfl, List.getElem?_set_eq_of_lt _ (by rw [List.length_set]; omega)⟩
    · intro hne
      exact Or.inr ⟨rfl, hne⟩

/-- C3 counterexample: a 7-cell debit row whose raw amount cell is empty;
the finished record has `out` (index 8) and `in` (index 9) both empty, so
"exactly one of the out/in fields is non-empty" fails for this record. -/
theorem C3_counterexample :
    getEntry ["01/01/2014", "", "desc", "1234", "Debet", "EUR", ""] =
      RowResult.entry ["01/01/2014", "", "desc", "1234", "Debet", "EUR", "-", "desc", "", ""] ∧
    ["01/01/2014", "", "desc", "1234", "Debet", "EUR", "-", "desc", "", ""][8]? = some "" ∧
    ["01/01/2014", "", "desc", "1234", "Debet", "EUR", "-", "desc", "", ""][9]? = some "" := by
  exact ⟨by decide, rfl, rfl⟩

/-- C3 witness: the amended theorem instantiated at a concrete 7-cell debit
row with amount `"€ 12,34"`. -/
theorem C3_witness :
    ∃ front payee out inn,
      getEntry ["01/02/2014", "", "STORE X AMS Land: NLD", "4321", "Debet", "EUR", "€ 12,34"] =
        RowResult.entry (front ++ [payee, out, inn]) ∧
      front.length =
        (["01/02/2014", "", "STORE X AMS Land: NLD", "4321", "Debet", "EUR", "€ 12,34"] :
          List String).length ∧
      payee = getPayee ((["01/02/2014", "", "STORE X AMS Land: NLD", "4321", "Debet", "EUR",
        "€ 12,34"] : List String).getD 2 "") ∧
      (matchDebet ((["01/02/2014", "", "STORE X AMS Land: NLD", "4321", "Debet", "EUR",
          "€ 12,34"] : List String).getD 4 "") = true →
        out = fixAmount ((["01/02/2014", "", "STORE X AMS Land: NLD", "4321", "Debet", "EUR",
          "€ 12,34"] : List String).getD 6 "") ∧ inn = "" ∧
        front[6]? = some ("-" ++ fixAmount ((["01/02/2014", "", "STORE X AMS Land: NLD",
          "4321", "Debet", "EUR", "€ 12,34"] : List String).getD 6 ""))) ∧
      (matchDebet ((["01/02/2014", "", "STORE X AMS Land: NLD", "4321", "Debet", "EUR",
          "€ 12,34"] : List String).getD 4 "") = false →
        out = "" ∧ inn = fixAmount ((["01/02/2014", "", "STORE X AMS Land: NLD", "4321",
          "Debet", "EUR", "€ 12,34"] : List String).getD 6 "") ∧
        front[6]? = some (fixAmount ((["01/02/2014", "", "STORE X AMS Land: NLD", "4321",
          "Debet", "EUR", "€ 12,34"] : List String).getD 6 ""))) ∧
      (fixAmount ((["01/02/2014", "", "STORE X AMS Land: NLD", "4321", "Debet", "EUR",
          "€ 12,34"] : List String).getD 6 "") ≠ "" →
        (out ≠ "" ∧ inn = "") ∨ (out = "" ∧ inn ≠ "")) :=
  C3_debit_credit_split
    ["01/02/2014", "", "STORE X AMS Land: NLD", "4321", "Debet", "EUR", "€ 12,34"] (by decide)

lemma increment_month_index (p : Period) (h1 : 1 ≤ p.month) (h2 : p.month ≤ 12) :
    monthIndex p.increment_month = monthIndex p + 1 ∧
    1 ≤ p.increment_month.month ∧ p.increment_month.month ≤ 12 := by
  unfold Period.increment_month monthIndex
  by_cases h : p.month = 12
  · rw [if_pos h]
    exact ⟨show 12 * (p.year + 1) + 1 = 12 * p.year + p.month + 1 from by omega,
      show (1:Int) ≤ 1 from by norm_num, show (1:Int) ≤ 12 from by norm_num⟩
  · rw [if_neg h]
    exact ⟨show 12 * p.year + (p.month + 1) = 12 * p.year + p.month + 1 from by omega,
      show 1 ≤ p.month + 1 from by omega, show p.month + 1 ≤ 12 from by omega⟩

lemma fetchedPeriods_spec : ∀ (n : Nat) (p e : Period),
    1 ≤ p.month → p.month ≤ 12 → 1 ≤ e.month → e.month ≤ 12 →
    monthIndex p ≤ monthIndex e → (monthIndex e - monthIndex p).toNat = n →
    ∃ l : List Period,
      fetchedPeriods (n + 1) p e = some l ∧
      l.length = n + 1 ∧
      l.head? = some p ∧
      l.getLast? = some e ∧
      (∀ i (hi : i < l.length), monthIndex (l.get ⟨i, hi⟩) = monthIndex p + i) ∧
      (∀ i (hi : i + 1 < l.length),
        l.get ⟨i + 1, hi⟩ = (l.get ⟨i, Nat.lt_of_succ_lt hi⟩).increment_month) := by
  intro n
  induction n with
  | zero =>
    intro p e h1 h2 h3 h4 hle hn
    have hme : p.month = e.month ∧ p.year = e.year := by
      unfold monthIndex at hle hn
      constructor <;> omega
    have hpe : p = e := by
      obtain ⟨hm, hy⟩ := hme
      cases p
      cases e
      simp only [] at hm hy
      rw [hm, hy]
    refine ⟨[p], ?_, rfl, rfl, by rw [hpe]; simp, ?_, ?_⟩
    · unfold fetchedPeriods
      rw [if_pos hme]
    · intro i hi
      have hi0 : i = 0 := by simpa using hi
      subst hi0
      show monthIndex p = monthIndex p + 0
      omega
    · intro i hi
      exact absurd hi (by simp)
  | succ n ih =>
    intro p e h1 h2 h3 h4 hle hn
    have hne : ¬ (p.month = e.month ∧ p.year = e.year) := by
      rintro ⟨hm, hy⟩
      unfold monthIndex at hn
      rw [hm, hy] at hn
      omega
    obtain ⟨hidx, hm1, hm2⟩ := increment_month_index p h1 h2
    have hle2 : monthIndex p.increment_month ≤ monthIndex e := by omega
    have hn2 : (monthIndex e - monthIndex p.increment_month).toNat = n := by omega
    obtain ⟨l, hl, hlen, hhead, hlast, hidxs, hchain⟩ :=
      ih p.increment_month e hm1 hm2 h3 h4 hle2 hn2
    have hlpos : 0 < l.length := by omega
    refine ⟨p :: l, ?_, by simp [hlen], rfl, ?_, ?_, ?_⟩
    · show fetchedPeriods (n + 1 + 1) p e = some (p :: l)
      unfold fetchedPeriods
      rw [if_neg hne, hl]
    · have hl_n : l[n]? = some e := by
        rw [List.getLast?_eq_getElem?, hlen] at hlast
        simpa using hlast
      rw [List.getLast?_eq_getElem?]
      simp only [List.length_cons, hlen]
      show (p :: l)[n + 1 + 1 - 1]? = some e
      rw [show n + 1 + 1 - 1 = n + 1 from by omega, List.getElem?_cons_succ]
      exact hl_n
    · intro i hi
      cases i with
      | zero =>
        show monthIndex p = monthIndex p + 0
        omega
      | succ j =>
        have hj : j < l.length := by simpa using hi
        show monthIndex (l.get ⟨j, hj⟩) = monthIndex p + (j + 1)
        rw [hidxs j hj, hidx]
        omega
    · intro i hi
      cases i with
      | zero =>
        have h0 : 0 < l.length := hlpos
        show l.get ⟨0, h0⟩ = p.increment_month
        have hg : l[0]? = some (l.get ⟨0, h0⟩) := by
          rw [List.getElem?_eq_getElem h0, List.get_eq_getElem]
        rw [List.head?_eq_getElem?, hg] at hhead
        exact Option.some.inj hhead
      | succ j =>
        have hj : j + 1 < l.length := by simpa using hi
        show l.get ⟨j + 1, hj⟩ = (l.get ⟨j, Nat.lt_of_succ_lt hj⟩).increment_month
        exact hchain j hj

/-- C9: when both an end month and an end year are given, the driver's loop
fetches one statement per period from the start period to the end period
inclusive, advancing by repeated `increment_month` calls, in strictly
increasing calendar order (the month index grows by exactly 1 per fetch),
and terminates exactly when the current period equals the end period — for
every start and end period with months in `[1, 12]` and the end not earlier
than the start. -/
theorem C9_period_loop :
    ∀ p e : Period, 1 ≤ p.month → p.month ≤ 12 → 1 ≤ e.month → e.month ≤ 12 →
      monthIndex p ≤ monthIndex e →
      ∃ l : List Period,
        fetchedPeriods ((monthIndex e - monthIndex p).toNat + 1) p e = some l ∧
        l.length = (monthIndex e - monthIndex p).toNat + 1 ∧
        l.head? = some p ∧
        l.getLast? = some e ∧
        (∀ i (hi : i < l.length), monthIndex (l.get ⟨i, hi⟩) = monthIndex p + i) ∧
        (∀ i (hi : i + 1 < l.length),
          l.get ⟨i + 1, hi⟩ = (l.get ⟨i, Nat.lt_of_succ_lt hi⟩).increment_month) :=
  fun p e h1 h2 h3 h4 hle =>
    fetchedPeriods_spec (monthIndex e - monthIndex p).toNat p e h1 h2 h3 h4 hle rfl

/-- C9 witness: the theorem instantiated at the start period `(11, 2020)`
and the end period `(1, 2021)` — three fetches, November to January. -/
theorem C9_witness :
    ∃ l : List Period,
      fetchedPeriods ((monthIndex ⟨1, 2021⟩ - monthIndex ⟨11, 2020⟩).toNat + 1)
        ⟨11, 2020⟩ ⟨1, 2021⟩ = some l ∧
      l.length = (monthIndex ⟨1, 2021⟩ - monthIndex ⟨11, 2020⟩).toNat + 1 ∧
      l.head? = some ⟨11, 2020⟩ ∧
      l.getLast? = some ⟨1, 2021⟩ ∧
      (∀ i (hi : i < l.length), monthIndex (l.get ⟨i, hi⟩) = monthIndex ⟨11, 2020⟩ + i) ∧
      (∀ i (hi : i + 1 < l.length),
        l.get ⟨i + 1, hi⟩ = (l.get ⟨i, Nat.lt_of_succ_lt hi⟩).increment_month) :=
  C9_period_loop ⟨11, 2020⟩ ⟨1, 2021⟩ (by decide) (by decide) (by decide) (by decide)
    (by decide)


end ICS
